import Mathlib

/-!
Verification development for a small batch ETL pipeline
(src/etl_pipeline.py, src/analytics.py, src/generate_orders.py).

The pipeline reads line-delimited JSON order records, validates the schema,
cleans the data (timestamp coercion, negative/null amount filtering,
de-duplication, category defaulting), writes the clean dataset, and runs a
few fixed aggregate queries.

Embedding choices:
- a DataFrame is a list of rows; a row is an association list from column
  names to cells, as produced by pd.DataFrame over parsed JSON objects;
- a cell is null (NaN/NaT, also standing for a key absent from the JSON
  object, which pandas fills with NaN), a rational number, a string, or a
  parsed date-time of an abstract type DT;
- pd.to_datetime with coercion and the dt.date rendering are abstract
  parameters (parse, dateOf): the pipeline treats them as oracles that
  either yield a date-time or NaT;
- sys.exit paths are modelled as Option/Except failures;
- the aggregate queries are run by an external engine (duckdb); a query is
  modelled as an Except value (engine success or engine error), and the
  printed output of the analytics stages as a list of messages.
-/

/-- A pandas cell: NaN/NaT (`null`), a number, a string, or a parsed
date-time of abstract type `DT`. -/
inductive Cell (DT : Type) where
  | null : Cell DT
  | num : ℚ → Cell DT
  | str : String → Cell DT
  | dt : DT → Cell DT
deriving DecidableEq

/-- A DataFrame row: association list from column names to cells. -/
abbrev Row (DT : Type) := List (String × Cell DT)

/-- Reading column `c` of a row: first binding wins; a column absent from
the row reads as NaN, as pandas fills missing keys of a JSON object. -/
def getCol {DT : Type} : Row DT → String → Cell DT
  | [], _ => Cell.null
  | p :: r, c => if p.1 = c then p.2 else getCol r c

/-- Column assignment (df[c] = v for one row): the new binding shadows any
older one. -/
def setCol {DT : Type} (r : Row DT) (c : String) (v : Cell DT) : Row DT :=
  (c, v) :: r

/-- pandas isna on a cell. -/
def isNA {DT : Type} : Cell DT → Bool
  | Cell.null => true
  | _ => false

/-- The boolean mask df["amount"] < 0 at one cell: true only for a negative
number (NaN < 0 is False in pandas). -/
def cellNeg {DT : Type} : Cell DT → Bool
  | Cell.num q => decide (q < 0)
  | _ => false

/-- The boolean mask df["amount"] >= 0 at one cell: true only for a
non-negative number (NaN >= 0 is False in pandas). -/
def cellGe0 {DT : Type} : Cell DT → Bool
  | Cell.num q => decide (0 ≤ q)
  | _ => false

/-- The raw data model's domain for the amount field: numeric or null
(missing). -/
def amtOk {DT : Type} : Cell DT → Bool
  | Cell.null => true
  | Cell.num _ => true
  | _ => false

/-- Column presence over the whole record set: pd.DataFrame(rows).columns
is the union of the keys of all parsed objects. -/
def colPresent {DT : Type} (df : List (Row DT)) (c : String) : Bool :=
  df.any (fun r => r.any (fun p => p.1 = c))

/-- The required column set of validate_schema. -/
def required_cols : List String :=
  ["order_id", "user_id", "category", "amount", "timestamp"]

/-- validate_schema: every required column is present in the DataFrame's
schema (column-level, not row-level); sys.exit(1) otherwise. -/
def validate_schema {DT : Type} (df : List (Row DT)) : Bool :=
  required_cols.all (fun c => colPresent df c)

/-- The ts_clean cell of one row: pd.to_datetime(timestamp,
errors=coerce), NaT (null) when parsing fails. -/
def tsVal {DT : Type} (parse : Cell DT → Option DT) (r : Row DT) : Cell DT :=
  match parse (getCol r "timestamp") with
  | some d => Cell.dt d
  | none => Cell.null

/-- Timestamp coercion step: set ts_clean = pd.to_datetime(timestamp,
errors=coerce), count the NaT rows, and drop them when the count is
positive. Returns (reported count, resulting DataFrame). -/
def tsStep {DT : Type} (parse : Cell DT → Option DT) (df : List (Row DT)) :
    Nat × List (Row DT) :=
  let df1 := df.map (fun r => setCol r "ts_clean" (tsVal parse r))
  let n := df1.countP (fun r => isNA (getCol r "ts_clean"))
  (n, if 0 < n then df1.filter (fun r => ! isNA (getCol r "ts_clean")) else df1)

/-- The order_date cell of one row: the ts_clean date rendered as a string
(astype(str) prints NaT as "NaT"). -/
def dateVal {DT : Type} (dateOf : DT → String) (r : Row DT) : Cell DT :=
  Cell.str (match getCol r "ts_clean" with
            | Cell.dt d => dateOf d
            | _ => "NaT")

/-- order_date derivation: df["order_date"] = df["ts_clean"].dt.date
rendered as a string. -/
def dateStep {DT : Type} (dateOf : DT → String) (df : List (Row DT)) :
    List (Row DT) :=
  df.map (fun r => setCol r "order_date" (dateVal dateOf r))

/-- Negative-amount rule: count rows with amount < 0; when positive, keep
the rows satisfying amount >= 0 (which also discards NaN amounts, since
NaN >= 0 is False). -/
def negStep {DT : Type} (df : List (Row DT)) : Nat × List (Row DT) :=
  let n := df.countP (fun r => cellNeg (getCol r "amount"))
  (n, if 0 < n then df.filter (fun r => cellGe0 (getCol r "amount")) else df)

/-- Null-amount rule: count rows with null amount; when positive, drop
them. -/
def nullStep {DT : Type} (df : List (Row DT)) : Nat × List (Row DT) :=
  let n := df.countP (fun r => isNA (getCol r "amount"))
  (n, if 0 < n then df.filter (fun r => ! isNA (getCol r "amount")) else df)

/-- The de-duplication key: the order_id cell (pandas duplicated treats
NaN keys as equal to each other, as Cell.null = Cell.null does here). -/
def dupKey {DT : Type} (r : Row DT) : Cell DT :=
  getCol r "order_id"

/-- df["order_id"].duplicated().sum(): the number of rows whose key has
already occurred earlier (seen accumulates the keys already passed). -/
def dupCount {DT : Type} [DecidableEq DT] (seen : List (Cell DT)) :
    List (Row DT) → Nat
  | [] => 0
  | r :: rs =>
      (if dupKey r ∈ seen then 1 else 0) + dupCount (dupKey r :: seen) rs

/-- drop_duplicates(subset=order_id, keep=first): keep the first row of
each key, in order. -/
def dedupe {DT : Type} [DecidableEq DT] (seen : List (Cell DT)) :
    List (Row DT) → List (Row DT)
  | [] => []
  | r :: rs =>
      if dupKey r ∈ seen then dedupe seen rs
      else r :: dedupe (dupKey r :: seen) rs

/-- Duplicate-order_id rule: count duplicates; when positive, de-duplicate
keeping the first occurrence. -/
def dupStep {DT : Type} [DecidableEq DT] (df : List (Row DT)) :
    Nat × List (Row DT) :=
  let n := dupCount [] df
  (n, if 0 < n then dedupe [] df else df)

/-- The category cell of one row after fillna("Unknown"). -/
def catVal {DT : Type} (r : Row DT) : Cell DT :=
  if isNA (getCol r "category") then Cell.str "Unknown"
  else getCol r "category"

/-- Category defaulting: df["category"] = df["category"].fillna("Unknown"). -/
def catStep {DT : Type} (df : List (Row DT)) : List (Row DT) :=
  df.map (fun r => setCol r "category" (catVal r))

/-- The final projection df[[order_id, user_id, category, amount, ts_clean,
order_date]]. -/
def project {DT : Type} (r : Row DT) : Row DT :=
  [("order_id", getCol r "order_id"),
   ("user_id", getCol r "user_id"),
   ("category", getCol r "category"),
   ("amount", getCol r "amount"),
   ("ts_clean", getCol r "ts_clean"),
   ("order_date", getCol r "order_date")]

/-- Projection of the whole DataFrame. -/
def projectStep {DT : Type} (df : List (Row DT)) : List (Row DT) :=
  df.map project

/-- The result of transform_data: the warnings actually printed (one
(step label, count) pair per printed removal warning) and the resulting
DataFrame. -/
structure TransformResult (DT : Type) where
  report : List (String × Nat)
  rows : List (Row DT)
deriving DecidableEq

/-- The DataFrame state entering the negative-amount rule: timestamps
coerced, invalid ones dropped, order_date derived. -/
def preNeg {DT : Type} (parse : Cell DT → Option DT) (dateOf : DT → String)
    (df : List (Row DT)) : List (Row DT) :=
  dateStep dateOf (tsStep parse df).2

/-- The invalid-timestamp removal count of the run. -/
def tsCount {DT : Type} (parse : Cell DT → Option DT)
    (df : List (Row DT)) : Nat :=
  (tsStep parse df).1

/-- The negative-amount removal count of the run (computed on the state
left by the timestamp steps). -/
def negCount {DT : Type} (parse : Cell DT → Option DT)
    (dateOf : DT → String) (df : List (Row DT)) : Nat :=
  (negStep (preNeg parse dateOf df)).1

/-- The null-amount removal count of the run (computed on the state left
by the negative-amount rule). -/
def nullCount {DT : Type} (parse : Cell DT → Option DT)
    (dateOf : DT → String) (df : List (Row DT)) : Nat :=
  (nullStep (negStep (preNeg parse dateOf df)).2).1

/-- The duplicate-order_id removal count of the run (computed on the
state left by the null-amount rule). -/
def dupCountOf {DT : Type} [DecidableEq DT] (parse : Cell DT → Option DT)
    (dateOf : DT → String) (df : List (Row DT)) : Nat :=
  (dupStep (nullStep (negStep (preNeg parse dateOf df)).2).2).1

/-- The rows transform_data returns: the cleaning steps chained in the
source's order, then category defaulting and the final projection. -/
def cleanRows {DT : Type} [DecidableEq DT] (parse : Cell DT → Option DT)
    (dateOf : DT → String) (df : List (Row DT)) : List (Row DT) :=
  projectStep (catStep
    (dupStep (nullStep (negStep (preNeg parse dateOf df)).2).2).2)

/-- The printed removal warnings: each step's (label, count) pair appears
exactly when the count is positive, in the source's print order. -/
def reportOf (a b c d : Nat) : List (String × Nat) :=
  (if 0 < a then [("invalid timestamps", a)] else []) ++
  (if 0 < b then [("negative amounts", b)] else []) ++
  (if 0 < c then [("null amounts", c)] else []) ++
  (if 0 < d then [("duplicate order_ids", d)] else [])

/-- transform_data: validate the schema (sys.exit(1), modelled none, when
it fails), then apply the cleaning steps in the source's order; a removal
warning is printed only when its count is positive. -/
def transform_data {DT : Type} [DecidableEq DT] (parse : Cell DT → Option DT)
    (dateOf : DT → String) (df : List (Row DT)) :
    Option (TransformResult DT) :=
  if validate_schema df then
    some
      { report := reportOf (tsCount parse df) (negCount parse dateOf df)
          (nullCount parse dateOf df) (dupCountOf parse dateOf df)
        rows := cleanRows parse dateOf df }
  else none

/-- The line loop of extract_data: each line is parsed independently; a
parse failure increments the error counter and skips the line. Returns
(parsed records in input order, malformed-line count). -/
def extractLoop {DT : Type} (parseLine : String → Option (Row DT)) :
    List String → List (Row DT) × Nat
  | [] => ([], 0)
  | l :: ls =>
      let rest := extractLoop parseLine ls
      match parseLine l with
      | some r => (r :: rest.1, rest.2)
      | none => (rest.1, rest.2 + 1)

/-- extract_data on an existing file: run the line loop; if no valid
record was obtained, sys.exit(1) (modelled as Except.error 1), else
return the records and the malformed-line count. -/
def extract_data {DT : Type} (parseLine : String → Option (Row DT))
    (lines : List String) : Except Nat (List (Row DT) × Nat) :=
  let p := extractLoop parseLine lines
  if p.1.isEmpty then Except.error 1 else Except.ok p

/-- One printed block of an analytics stage: either a query's tabular
result or a caught-error message. -/
inductive AnalyticsMsg (A : Type) where
  | result : A → AnalyticsMsg A
  | warn : String → AnalyticsMsg A
deriving DecidableEq

/-- The printed block for one independently guarded query (its own
try/except): the result on success, the error message on failure. -/
def toMsg {A : Type} : Except String A → AnalyticsMsg A
  | Except.ok a => AnalyticsMsg.result a
  | Except.error e => AnalyticsMsg.warn e

/-- run_analytics (the embedded entry point, etl_pipeline.py): one
try/except wraps both con.execute calls, so the category query runs and
prints, then the summary query runs and prints; any exception jumps to
the single handler, which prints a warning and returns normally. -/
def run_analytics {A : Type} (q1 q2 : Except String A) :
    List (AnalyticsMsg A) :=
  match q1 with
  | Except.error e => [AnalyticsMsg.warn e]
  | Except.ok r1 =>
      match q2 with
      | Except.error e => [AnalyticsMsg.result r1, AnalyticsMsg.warn e]
      | Except.ok r2 => [AnalyticsMsg.result r1, AnalyticsMsg.result r2]

/-- The standalone entry point (analytics.py): the category, daily and
summary queries each sit in their own try/except, so each is attempted
and its block printed regardless of the others. -/
def analytics_standalone {A : Type} (q1 q2 q3 : Except String A) :
    List (AnalyticsMsg A) :=
  [toMsg q1, toMsg q2, toMsg q3]

/-- The amount column of a clean DataFrame as the numeric multiset an SQL
aggregate sees (NULL cells are ignored by SQL aggregates). -/
def amounts {DT : Type} (df : List (Row DT)) : List ℚ :=
  df.filterMap (fun r =>
    match getCol r "amount" with
    | Cell.num q => some q
    | _ => none)

/-- SQL ROUND(x, 2). -/
def round2 (q : ℚ) : ℚ := (round (q * 100) : ℤ) / 100

/-- SQL SUM over a column: NULL on an empty input. -/
def sqlSum (l : List ℚ) : Option ℚ :=
  if l.isEmpty then none else some l.sum

/-- SQL AVG over a column: NULL on an empty input. -/
def sqlAvg (l : List ℚ) : Option ℚ :=
  if l.isEmpty then none else some (l.sum / l.length)

/-- SQL MIN over a column: NULL on an empty input. -/
def sqlMin : List ℚ → Option ℚ
  | [] => none
  | x :: xs => some (xs.foldl min x)

/-- SQL MAX over a column: NULL on an empty input. -/
def sqlMax : List ℚ → Option ℚ
  | [] => none
  | x :: xs => some (xs.foldl max x)

/-- COUNT(DISTINCT user_id). -/
def distinctUsers {DT : Type} [DecidableEq DT] (df : List (Row DT)) : Nat :=
  (df.map (fun r => getCol r "user_id")).dedup.length

/-- The summary query of the embedded entry point (run_analytics in
etl_pipeline.py): COUNT(*), COUNT(DISTINCT user_id), ROUND(SUM(amount), 2),
ROUND(AVG(amount), 2) — no MIN or MAX columns. -/
def summary_embedded {DT : Type} [DecidableEq DT] (df : List (Row DT)) :
    List (String × Option ℚ) :=
  [("total_orders", some (df.length : ℚ)),
   ("unique_users", some (distinctUsers df : ℚ)),
   ("total_revenue", (sqlSum (amounts df)).map round2),
   ("avg_order", (sqlAvg (amounts df)).map round2)]

/-- The overall-summary query of the standalone entry point
(analytics.py): COUNT(*), COUNT(DISTINCT user_id), rounded SUM, AVG, MIN
and MAX of amount. -/
def summary_standalone {DT : Type} [DecidableEq DT] (df : List (Row DT)) :
    List (String × Option ℚ) :=
  [("total_orders", some (df.length : ℚ)),
   ("unique_users", some (distinctUsers df : ℚ)),
   ("total_revenue", (sqlSum (amounts df)).map round2),
   ("avg_order_value", (sqlAvg (amounts df)).map round2),
   ("min_order", (sqlMin (amounts df)).map round2),
   ("max_order", (sqlMax (amounts df)).map round2)]

/-- main (etl_pipeline.py) as an exit-code function. fileExists models
os.path.exists on the input; writeOk models the load try block (directory
creation plus to_parquet) succeeding; q1, q2 are the engine's outcomes for
the two analytics queries, whose printed output is discarded here since
run_analytics catches every exception. Returns the process exit code. -/
def mainPipeline {DT A : Type} [DecidableEq DT]
    (fileExists writeOk : Bool) (parseLine : String → Option (Row DT))
    (parse : Cell DT → Option DT) (dateOf : DT → String)
    (lines : List String) (q1 q2 : Except String A) : Nat :=
  if !fileExists then 1
  else
    match extract_data parseLine lines with
    | Except.error c => c
    | Except.ok p =>
        match transform_data parse dateOf p.1 with
        | none => 1
        | some _ =>
            if !writeOk then 1
            else
              let _ := run_analytics q1 q2
              0

/-! Concrete instances used to exercise the theorems: a toy date-time
type (Nat), a toy timestamp parser and date renderer, and small input
DataFrames. -/

/-- A concrete stand-in for pd.to_datetime: parses a string cell other
than "bad" to its length, fails on everything else (in particular on
null, as pd.to_datetime(NaN) is NaT). -/
def p0 : Cell Nat → Option Nat
  | Cell.str s => if s = "bad" then none else some s.length
  | _ => none

/-- A concrete date renderer. -/
def d0 (n : Nat) : String := Nat.repr n

/-- A raw order record row from the five JSON fields. -/
def mkRow (oid uid cat amt ts : Cell Nat) : Row Nat :=
  [("order_id", oid), ("user_id", uid), ("category", cat),
   ("amount", amt), ("timestamp", ts)]

/-- A dirty input: a negative amount, a null amount with null category,
an unparseable timestamp, and a duplicated order_id. -/
def wdf : List (Row Nat) :=
  [mkRow (Cell.str "a") (Cell.num 1) (Cell.str "Beauty") (Cell.num (-5))
     (Cell.str "t1"),
   mkRow (Cell.str "b") (Cell.num 2) Cell.null Cell.null (Cell.str "t2"),
   mkRow (Cell.str "c") (Cell.num 3) (Cell.str "Home") (Cell.num 10)
     (Cell.str "bad"),
   mkRow (Cell.str "d") (Cell.num 4) (Cell.str "Grocery") (Cell.num 7)
     (Cell.str "t3"),
   mkRow (Cell.str "d") (Cell.num 5) (Cell.str "Fashion") (Cell.num 8)
     (Cell.str "t4")]

/-- An already-clean input: valid timestamps, non-null non-negative
amounts, non-null categories, distinct order_ids. -/
def cdf : List (Row Nat) :=
  [mkRow (Cell.str "a") (Cell.num 1) (Cell.str "Beauty") (Cell.num 5)
     (Cell.str "t1"),
   mkRow (Cell.str "b") (Cell.num 2) (Cell.str "Home") (Cell.num 3)
     (Cell.str "t2")]

/-- Two rows as they stand entering the negative-amount rule: one
negative amount, one null amount. -/
def c2df : List (Row Nat) :=
  [[("order_id", Cell.str "a"), ("amount", Cell.num (-5))],
   [("order_id", Cell.str "b"), ("amount", Cell.null)]]

/-- A dataset (as it stands entering de-duplication) with three rows, two
of which share order_id "x" with differing amounts. -/
def c9df : List (Row Nat) :=
  [[("order_id", Cell.str "x"), ("amount", Cell.num 10)],
   [("order_id", Cell.str "y"), ("amount", Cell.num 20)],
   [("order_id", Cell.str "x"), ("amount", Cell.num 30)]]

/-- A record set in which every required field appears in some record but
no record carries all of them. -/
def c10df : List (Row Nat) :=
  [[("order_id", Cell.str "a"), ("user_id", Cell.num 1),
    ("timestamp", Cell.str "t1")],
   [("order_id", Cell.str "b"), ("category", Cell.str "Home"),
    ("amount", Cell.num 4), ("timestamp", Cell.str "t2")]]

/-- A line parser for the extractor instances: "bad" lines fail, others
parse to a one-column row. -/
def pl0 : String → Option (Row Nat) :=
  fun l => if l = "bad" then none else some [("line", Cell.str l)]

/-- A line parser that fails on every line. -/
def plFail : String → Option (Row Nat) := fun _ => none

/-- The transform result on wdf: row a dropped as negative, row b swept
out by the negative-amount filter, row c dropped for its timestamp, the
second d dropped as a duplicate. -/
def w1res : TransformResult Nat :=
  { report := [("invalid timestamps", 1), ("negative amounts", 1),
      ("duplicate order_ids", 1)],
    rows := [[("order_id", Cell.str "d"), ("user_id", Cell.num 4),
      ("category", Cell.str "Grocery"), ("amount", Cell.num 7),
      ("ts_clean", Cell.dt 2), ("order_date", Cell.str "2")]] }

/-- The transform result on the already-clean cdf: empty report, both
rows kept (projected to the clean schema, which lacks the raw timestamp
column). -/
def c4res : TransformResult Nat :=
  { report := [],
    rows := [[("order_id", Cell.str "a"), ("user_id", Cell.num 1),
      ("category", Cell.str "Beauty"), ("amount", Cell.num 5),
      ("ts_clean", Cell.dt 2), ("order_date", Cell.str "2")],
      [("order_id", Cell.str "b"), ("user_id", Cell.num 2),
      ("category", Cell.str "Home"), ("amount", Cell.num 3),
      ("ts_clean", Cell.dt 2), ("order_date", Cell.str "2")]] }

/-! Basic lemmas about rows and the cleaning steps. -/

theorem getCol_setCol_same {DT : Type} (r : Row DT) (c : String)
    (v : Cell DT) : getCol (setCol r c v) c = v := by
  simp [setCol, getCol]

theorem getCol_setCol_ne {DT : Type} (r : Row DT) {c c' : String}
    (v : Cell DT) (h : c ≠ c') : getCol (setCol r c v) c' = getCol r c' := by
  simp [setCol, getCol, h]

theorem tsVal_cases {DT : Type} (parse : Cell DT → Option DT) (r : Row DT) :
    (∃ d, tsVal parse r = Cell.dt d) ∨ tsVal parse r = Cell.null := by
  unfold tsVal
  cases parse (getCol r "timestamp") with
  | none => exact Or.inr rfl
  | some d => exact Or.inl ⟨d, rfl⟩

theorem mem_tsStep {DT : Type} {parse : Cell DT → Option DT}
    {df : List (Row DT)} {r : Row DT} (h : r ∈ (tsStep parse df).2) :
    ∃ r₀ ∈ df, r = setCol r₀ "ts_clean" (tsVal parse r₀) := by
  unfold tsStep at h
  simp only at h
  split at h
  · obtain ⟨a, ha, he⟩ := List.mem_map.mp (List.mem_of_mem_filter h)
    exact ⟨a, ha, he.symm⟩
  · obtain ⟨a, ha, he⟩ := List.mem_map.mp h
    exact ⟨a, ha, he.symm⟩

theorem tsStep_valid {DT : Type} {parse : Cell DT → Option DT}
    {df : List (Row DT)} {r : Row DT} (h : r ∈ (tsStep parse df).2) :
    ∃ d, getCol r "ts_clean" = Cell.dt d := by
  have hna : isNA (getCol r "ts_clean") = false := by
    unfold tsStep at h
    simp only at h
    split at h
    · have := (List.mem_filter.mp h).2
      simpa using this
    · rename_i hn
      have hz : (df.map (fun r => setCol r "ts_clean" (tsVal parse r))).countP
          (fun r => isNA (getCol r "ts_clean")) = 0 := by omega
      have := List.countP_eq_zero.mp hz r h
      simpa using this
  obtain ⟨r₀, _, rfl⟩ := mem_tsStep h
  rw [getCol_setCol_same] at hna ⊢
  rcases tsVal_cases parse r₀ with ⟨d, hd⟩ | hnull
  · exact ⟨d, hd⟩
  · rw [hnull] at hna
    simp [isNA] at hna

theorem mem_dateStep {DT : Type} {dateOf : DT → String}
    {df : List (Row DT)} {r : Row DT} (h : r ∈ dateStep dateOf df) :
    ∃ r₀ ∈ df, r = setCol r₀ "order_date" (dateVal dateOf r₀) := by
  obtain ⟨a, ha, he⟩ := List.mem_map.mp h
  exact ⟨a, ha, he.symm⟩

theorem negStep_subset {DT : Type} {df : List (Row DT)} {r : Row DT}
    (h : r ∈ (negStep df).2) : r ∈ df := by
  unfold negStep at h
  simp only at h
  split at h
  · exact List.mem_of_mem_filter h
  · exact h

theorem nullStep_subset {DT : Type} {df : List (Row DT)} {r : Row DT}
    (h : r ∈ (nullStep df).2) : r ∈ df := by
  unfold nullStep at h
  simp only at h
  split at h
  · exact List.mem_of_mem_filter h
  · exact h

theorem dedupe_subset {DT : Type} [DecidableEq DT] {seen : List (Cell DT)}
    {l : List (Row DT)} {r : Row DT} (h : r ∈ dedupe seen l) : r ∈ l := by
  induction l generalizing seen with
  | nil => simp [dedupe] at h
  | cons a t ih =>
      unfold dedupe at h
      split at h
      · exact List.mem_cons_of_mem a (ih h)
      · rcases List.mem_cons.mp h with h1 | h2
        · exact h1 ▸ List.mem_cons_self a t
        · exact List.mem_cons_of_mem a (ih h2)

theorem dupStep_subset {DT : Type} [DecidableEq DT] {df : List (Row DT)}
    {r : Row DT} (h : r ∈ (dupStep df).2) : r ∈ df := by
  unfold dupStep at h
  simp only at h
  split at h
  · exact dedupe_subset h
  · exact h

theorem mem_catStep {DT : Type} {df : List (Row DT)} {r : Row DT}
    (h : r ∈ catStep df) : ∃ r₀ ∈ df, r = setCol r₀ "category" (catVal r₀) := by
  obtain ⟨a, ha, he⟩ := List.mem_map.mp h
  exact ⟨a, ha, he.symm⟩

theorem catVal_not_null {DT : Type} (r : Row DT) :
    isNA (catVal r) = false := by
  unfold catVal
  split
  · simp [isNA]
  · rename_i h
    simpa using h

theorem cellGe0_iff {DT : Type} {c : Cell DT} :
    cellGe0 c = true ↔ ∃ q, c = Cell.num q ∧ 0 ≤ q := by
  cases c <;> simp [cellGe0]

theorem amtOk_iff {DT : Type} {c : Cell DT} :
    amtOk c = true ↔ c = Cell.null ∨ ∃ q : ℚ, c = Cell.num q := by
  cases c <;> simp [amtOk]

theorem negStep_amount {DT : Type} {df : List (Row DT)}
    (h : ∀ r ∈ df, amtOk (getCol r "amount") = true) :
    ∀ r ∈ (negStep df).2,
      getCol r "amount" = Cell.null ∨
        ∃ q, getCol r "amount" = Cell.num q ∧ 0 ≤ q := by
  intro r hr
  unfold negStep at hr
  simp only at hr
  split at hr
  · have h2 := (List.mem_filter.mp hr).2
    obtain ⟨q, hq, hle⟩ := cellGe0_iff.mp h2
    exact Or.inr ⟨q, hq, hle⟩
  · rename_i hn
    have hz : df.countP (fun r => cellNeg (getCol r "amount")) = 0 := by omega
    have hnc := List.countP_eq_zero.mp hz r hr
    rcases amtOk_iff.mp (h r hr) with hnull | ⟨q, hq⟩
    · exact Or.inl hnull
    · refine Or.inr ⟨q, hq, ?_⟩
      rw [hq] at hnc
      simp [cellNeg] at hnc
      linarith

theorem nullStep_amount {DT : Type} {df : List (Row DT)}
    (h : ∀ r ∈ df,
      getCol r "amount" = Cell.null ∨
        ∃ q, getCol r "amount" = Cell.num q ∧ 0 ≤ q) :
    ∀ r ∈ (nullStep df).2, cellGe0 (getCol r "amount") = true := by
  intro r hr
  unfold nullStep at hr
  simp only at hr
  split at hr
  · have h2 := (List.mem_filter.mp hr).2
    have h1 := h r (List.mem_of_mem_filter hr)
    rcases h1 with hnull | ⟨q, hq, hle⟩
    · rw [hnull] at h2
      simp [isNA] at h2
    · exact cellGe0_iff.mpr ⟨q, hq, hle⟩
  · rename_i hn
    have hz : df.countP (fun r => isNA (getCol r "amount")) = 0 := by omega
    have hna := List.countP_eq_zero.mp hz r hr
    rcases h r hr with hnull | ⟨q, hq, hle⟩
    · rw [hnull] at hna
      simp [isNA] at hna
    · exact cellGe0_iff.mpr ⟨q, hq, hle⟩

theorem dedupe_key_not_seen {DT : Type} [DecidableEq DT]
    {seen : List (Cell DT)} {l : List (Row DT)} {r : Row DT}
    (h : r ∈ dedupe seen l) : dupKey r ∉ seen := by
  induction l generalizing seen with
  | nil => simp [dedupe] at h
  | cons a t ih =>
      unfold dedupe at h
      split at h
      · exact ih h
      · rename_i hns
        rcases List.mem_cons.mp h with rfl | h2
        · exact hns
        · have h3 := ih h2
          exact fun hs => h3 (List.mem_cons_of_mem _ hs)

theorem dedupe_pairwise {DT : Type} [DecidableEq DT]
    (seen : List (Cell DT)) (l : List (Row DT)) :
    (dedupe seen l).Pairwise (fun a b => dupKey a ≠ dupKey b) := by
  induction l generalizing seen with
  | nil => simp [dedupe]
  | cons a t ih =>
      unfold dedupe
      split
      · exact ih seen
      · refine List.Pairwise.cons ?_ (ih _)
        intro b hb he
        exact dedupe_key_not_seen hb (he ▸ List.mem_cons_self _ _)

theorem dupCount_zero {DT : Type} [DecidableEq DT]
    {seen : List (Cell DT)} {l : List (Row DT)} (h : dupCount seen l = 0) :
    l.Pairwise (fun a b => dupKey a ≠ dupKey b) ∧
      ∀ r ∈ l, dupKey r ∉ seen := by
  induction l generalizing seen with
  | nil => exact ⟨List.Pairwise.nil, by simp⟩
  | cons a t ih =>
      unfold dupCount at h
      have h1 : dupKey a ∉ seen := by
        by_contra hc
        rw [if_pos hc] at h
        omega
      rw [if_neg h1] at h
      have h2 : dupCount (dupKey a :: seen) t = 0 := by omega
      obtain ⟨hp, hs⟩ := ih h2
      constructor
      · refine List.Pairwise.cons ?_ hp
        intro b hb he
        exact hs b hb (he ▸ List.mem_cons_self _ _)
      · intro r hr
        rcases List.mem_cons.mp hr with rfl | hr2
        · exact h1
        · exact fun hs' => hs r hr2 (List.mem_cons_of_mem _ hs')

theorem dupStep_pairwise {DT : Type} [DecidableEq DT]
    (df : List (Row DT)) :
    (dupStep df).2.Pairwise (fun a b => dupKey a ≠ dupKey b) := by
  unfold dupStep
  simp only
  split
  · exact dedupe_pairwise [] df
  · rename_i hn
    have hz : dupCount [] df = 0 := by omega
    exact (dupCount_zero hz).1

theorem getCol_project_order_id {DT : Type} (r : Row DT) :
    getCol (project r) "order_id" = getCol r "order_id" := by
  simp [project, getCol]

theorem getCol_project_category {DT : Type} (r : Row DT) :
    getCol (project r) "category" = getCol r "category" := by
  simp [project, getCol]

theorem getCol_project_amount {DT : Type} (r : Row DT) :
    getCol (project r) "amount" = getCol r "amount" := by
  simp [project, getCol]

theorem getCol_project_ts {DT : Type} (r : Row DT) :
    getCol (project r) "ts_clean" = getCol r "ts_clean" := by
  simp [project, getCol]

theorem cellGe0_not_null {DT : Type} {c : Cell DT}
    (h : cellGe0 c = true) : isNA c = false := by
  obtain ⟨q, rfl, _⟩ := cellGe0_iff.mp h
  simp [isNA]

theorem preNeg_amount {DT : Type} (parse : Cell DT → Option DT)
    (dateOf : DT → String) {df : List (Row DT)}
    (h : ∀ r ∈ df, amtOk (getCol r "amount") = true) :
    ∀ r ∈ preNeg parse dateOf df, amtOk (getCol r "amount") = true := by
  intro r hr
  obtain ⟨r1, hr1, rfl⟩ := mem_dateStep hr
  rw [getCol_setCol_ne _ _ (by decide)]
  obtain ⟨r0, hr0, rfl⟩ := mem_tsStep hr1
  rw [getCol_setCol_ne _ _ (by decide)]
  exact h r0 hr0

theorem preNeg_ts {DT : Type} (parse : Cell DT → Option DT)
    (dateOf : DT → String) {df : List (Row DT)} :
    ∀ r ∈ preNeg parse dateOf df, ∃ d, getCol r "ts_clean" = Cell.dt d := by
  intro r hr
  obtain ⟨r1, hr1, rfl⟩ := mem_dateStep hr
  rw [getCol_setCol_ne _ _ (by decide)]
  exact tsStep_valid hr1

theorem cleanRows_invariant {DT : Type} [DecidableEq DT]
    (parse : Cell DT → Option DT) (dateOf : DT → String)
    (df : List (Row DT)) (h : ∀ r ∈ df, amtOk (getCol r "amount") = true) :
    (∀ r ∈ cleanRows parse dateOf df,
      isNA (getCol r "amount") = false ∧
      cellGe0 (getCol r "amount") = true ∧
      (∃ d, getCol r "ts_clean" = Cell.dt d) ∧
      isNA (getCol r "category") = false) ∧
    (cleanRows parse dateOf df).Pairwise
      (fun a b => getCol a "order_id" ≠ getCol b "order_id") := by
  have hD3 := negStep_amount (preNeg_amount parse dateOf h)
  have hD4 := nullStep_amount hD3
  have hD5amt : ∀ r ∈ (dupStep (nullStep
      (negStep (preNeg parse dateOf df)).2).2).2,
      cellGe0 (getCol r "amount") = true :=
    fun r hr => hD4 r (dupStep_subset hr)
  have hD5ts : ∀ r ∈ (dupStep (nullStep
      (negStep (preNeg parse dateOf df)).2).2).2,
      ∃ d, getCol r "ts_clean" = Cell.dt d :=
    fun r hr => preNeg_ts parse dateOf r
      (negStep_subset (nullStep_subset (dupStep_subset hr)))
  constructor
  · intro r hr
    obtain ⟨r1, hr1, rfl⟩ := List.mem_map.mp hr
    obtain ⟨r2, hr2, rfl⟩ := mem_catStep hr1
    have hamt : getCol (project (setCol r2 "category" (catVal r2))) "amount"
        = getCol r2 "amount" := by
      rw [getCol_project_amount, getCol_setCol_ne _ _ (by decide)]
    have hts : getCol (project (setCol r2 "category" (catVal r2))) "ts_clean"
        = getCol r2 "ts_clean" := by
      rw [getCol_project_ts, getCol_setCol_ne _ _ (by decide)]
    have hcat : getCol (project (setCol r2 "category" (catVal r2))) "category"
        = catVal r2 := by
      rw [getCol_project_category, getCol_setCol_same]
    refine ⟨?_, ?_, ?_, ?_⟩
    · rw [hamt]
      exact cellGe0_not_null (hD5amt r2 hr2)
    · rw [hamt]
      exact hD5amt r2 hr2
    · rw [hts]
      exact hD5ts r2 hr2
    · rw [hcat]
      exact catVal_not_null r2
  · have hp := dupStep_pairwise (nullStep
      (negStep (preNeg parse dateOf df)).2).2
    have hp2 : (catStep (dupStep (nullStep
        (negStep (preNeg parse dateOf df)).2).2).2).Pairwise
        (fun a b => dupKey a ≠ dupKey b) := by
      refine List.Pairwise.map _ ?_ hp
      intro a b hab he
      apply hab
      unfold dupKey at he ⊢
      rwa [getCol_setCol_ne _ _ (by decide),
        getCol_setCol_ne _ _ (by decide)] at he
    have hp3 : (projectStep (catStep (dupStep (nullStep
        (negStep (preNeg parse dateOf df)).2).2).2)).Pairwise
        (fun a b => getCol a "order_id" ≠ getCol b "order_id") := by
      refine List.Pairwise.map _ ?_ hp2
      intro a b hab he
      apply hab
      unfold dupKey
      rwa [getCol_project_order_id, getCol_project_order_id] at he
    exact hp3

/-! Claim theorems. -/

/-- C1: for every input dataset whose amount cells lie in the raw data
model's domain (numeric or null), every record in the dataset the
Transformer returns (and hence the Loader writes) simultaneously has a
non-null amount, a non-negative amount, a valid (non-null) parsed
timestamp and a non-null category, and order_id is unique across the
output set. -/
theorem c1_loader_output_invariant {DT : Type} [DecidableEq DT]
    (parse : Cell DT → Option DT) (dateOf : DT → String)
    (df : List (Row DT)) (res : TransformResult DT)
    (hdom : ∀ r ∈ df, amtOk (getCol r "amount") = true)
    (hres : transform_data parse dateOf df = some res) :
    (∀ r ∈ res.rows,
      isNA (getCol r "amount") = false ∧
      cellGe0 (getCol r "amount") = true ∧
      (∃ d, getCol r "ts_clean" = Cell.dt d) ∧
      isNA (getCol r "category") = false) ∧
    res.rows.Pairwise
      (fun a b => getCol a "order_id" ≠ getCol b "order_id") := by
  unfold transform_data at hres
  split at hres
  · cases Option.some.inj hres
    exact cleanRows_invariant parse dateOf df hdom
  · exact absurd hres (by simp)

/-- Witness for C1 at the concrete dirty dataset wdf. -/
theorem c1_loader_output_invariant_witness :
    (∀ r ∈ w1res.rows,
      isNA (getCol r "amount") = false ∧
      cellGe0 (getCol r "amount") = true ∧
      (∃ d, getCol r "ts_clean" = Cell.dt d) ∧
      isNA (getCol r "category") = false) ∧
    w1res.rows.Pairwise
      (fun a b => getCol a "order_id" ≠ getCol b "order_id") :=
  c1_loader_output_invariant p0 d0 wdf w1res (by decide) (by decide)

theorem cellGe0_eq_amtOk {DT : Type} {c : Cell DT} (h : amtOk c = true) :
    cellGe0 c = true ↔ cellNeg c = false ∧ isNA c = false := by
  rcases amtOk_iff.mp h with rfl | ⟨q, rfl⟩
  · simp [cellGe0, cellNeg, isNA]
  · simp [cellGe0, cellNeg, isNA, not_lt]

theorem nullStep_mem {DT : Type} (d : List (Row DT)) (r : Row DT)
    (hr : r ∈ d) :
    r ∈ (nullStep d).2 ↔ isNA (getCol r "amount") = false := by
  unfold nullStep
  simp only
  split
  · rw [List.mem_filter]
    simp [hr]
  · rename_i hn
    have hz : d.countP (fun r => isNA (getCol r "amount")) = 0 := by omega
    have h0 := List.countP_eq_zero.mp hz r hr
    simp only [Bool.not_eq_true] at h0
    simp [hr, h0]

/-- C2, amended: the negative-amount rule reports exactly the number of
negative-amount rows, but when that count is positive its filter keeps
exactly the rows with a non-negative non-null amount — so null-amount
rows are removed by the negative-amount rule as well; when the count is
zero nothing is removed. The null-amount rule then removes exactly the
null-amount rows as they stood after the negative-amount rule and
reports that exact count. -/
theorem c2_neg_null_rules {DT : Type} (df : List (Row DT))
    (h : ∀ r ∈ df, amtOk (getCol r "amount") = true) :
    (negStep df).1 = df.countP (fun r => cellNeg (getCol r "amount")) ∧
    (0 < (negStep df).1 →
      ∀ r ∈ df, (r ∈ (negStep df).2 ↔
        cellNeg (getCol r "amount") = false ∧
        isNA (getCol r "amount") = false)) ∧
    ((negStep df).1 = 0 → (negStep df).2 = df) ∧
    (nullStep (negStep df).2).1 =
      (negStep df).2.countP (fun r => isNA (getCol r "amount")) ∧
    (∀ r ∈ (negStep df).2,
      (r ∈ (nullStep (negStep df).2).2 ↔
        isNA (getCol r "amount") = false)) := by
  refine ⟨rfl, ?_, ?_, rfl, ?_⟩
  · intro hpos r hr
    have hpos' : 0 < df.countP (fun r => cellNeg (getCol r "amount")) := hpos
    unfold negStep
    simp only
    rw [if_pos hpos']
    rw [List.mem_filter]
    constructor
    · intro ⟨_, hge⟩
      exact (cellGe0_eq_amtOk (h r hr)).mp hge
    · intro hne
      exact ⟨hr, (cellGe0_eq_amtOk (h r hr)).mpr hne⟩
  · intro hz
    have hz' : df.countP (fun r => cellNeg (getCol r "amount")) = 0 := hz
    unfold negStep
    simp only
    rw [if_neg (by omega)]
  · intro r hr
    exact nullStep_mem _ r hr

/-- C2, counterexample: on a dataset of one negative-amount row and one
null-amount row, the negative-amount rule reports count 1 yet removes
both rows (its output is empty), although a null-amount row was present
— the rule does not remove only the negative rows. -/
theorem c2_counterexample :
    (negStep c2df).1 = 1 ∧
    (negStep c2df).2 = [] ∧
    c2df.countP (fun r => isNA (getCol r "amount")) = 1 := by decide

/-- Witness for C2's amended theorem at the concrete dataset c2df. -/
theorem c2_neg_null_rules_witness :
    (negStep c2df).1 = c2df.countP (fun r => cellNeg (getCol r "amount")) ∧
    (0 < (negStep c2df).1 →
      ∀ r ∈ c2df, (r ∈ (negStep c2df).2 ↔
        cellNeg (getCol r "amount") = false ∧
        isNA (getCol r "amount") = false)) ∧
    ((negStep c2df).1 = 0 → (negStep c2df).2 = c2df) ∧
    (nullStep (negStep c2df).2).1 =
      (negStep c2df).2.countP (fun r => isNA (getCol r "amount")) ∧
    (∀ r ∈ (negStep c2df).2,
      (r ∈ (nullStep (negStep c2df).2).2 ↔
        isNA (getCol r "amount") = false)) :=
  c2_neg_null_rules c2df (by decide)

theorem mem_reportEntry {l : String} {n : Nat} {p : String × Nat}
    (hp : p ∈ if 0 < n then [(l, n)] else []) : 0 < p.2 ∧ p = (l, n) := by
  split at hp
  · rename_i h0
    simp at hp
    rw [hp]
    exact ⟨h0, rfl⟩
  · simp at hp

theorem reportOf_mem_pos (a b c d : Nat) :
    ∀ p ∈ reportOf a b c d, 0 < p.2 := by
  intro p hp
  unfold reportOf at hp
  rcases List.mem_append.mp hp with h12 | h4
  · rcases List.mem_append.mp h12 with h1 | h3
    · rcases List.mem_append.mp h1 with ha | hb
      · exact (mem_reportEntry ha).1
      · exact (mem_reportEntry hb).1
    · exact (mem_reportEntry h3).1
  · exact (mem_reportEntry h4).1

theorem reportOf_mem_iff (a b c d n : Nat) (l : String) :
    (l, n) ∈ reportOf a b c d ↔
      ((l = "invalid timestamps" ∧ n = a ∧ 0 < a) ∨
       (l = "negative amounts" ∧ n = b ∧ 0 < b) ∨
       (l = "null amounts" ∧ n = c ∧ 0 < c) ∨
       (l = "duplicate order_ids" ∧ n = d ∧ 0 < d)) := by
  unfold reportOf
  constructor
  · intro hp
    rcases List.mem_append.mp hp with h12 | h4
    · rcases List.mem_append.mp h12 with h1 | h3
      · rcases List.mem_append.mp h1 with ha | hb
        · have := (mem_reportEntry ha).2
          simp at this
          exact Or.inl ⟨this.1, this.2, this.2 ▸ (mem_reportEntry ha).1⟩
        · have := (mem_reportEntry hb).2
          simp at this
          exact Or.inr (Or.inl ⟨this.1, this.2, this.2 ▸ (mem_reportEntry hb).1⟩)
      · have := (mem_reportEntry h3).2
        simp at this
        exact Or.inr (Or.inr (Or.inl ⟨this.1, this.2, this.2 ▸ (mem_reportEntry h3).1⟩))
    · have := (mem_reportEntry h4).2
      simp at this
      exact Or.inr (Or.inr (Or.inr ⟨this.1, this.2, this.2 ▸ (mem_reportEntry h4).1⟩))
  · intro hd
    rcases hd with ⟨rfl, rfl, h0⟩ | ⟨rfl, rfl, h0⟩ | ⟨rfl, rfl, h0⟩ | ⟨rfl, rfl, h0⟩
    · refine List.mem_append.mpr (Or.inl (List.mem_append.mpr (Or.inl
        (List.mem_append.mpr (Or.inl (by rw [if_pos h0]; simp))))))
    · refine List.mem_append.mpr (Or.inl (List.mem_append.mpr (Or.inl
        (List.mem_append.mpr (Or.inr (by rw [if_pos h0]; simp))))))
    · refine List.mem_append.mpr (Or.inl (List.mem_append.mpr
        (Or.inr (by rw [if_pos h0]; simp))))
    · exact List.mem_append.mpr (Or.inr (by rw [if_pos h0]; simp))

/-- C3, amended: the Transformer's report surfaces a cleaning step's
removal count exactly when that count is positive; a zero count is
omitted from the report (silently implying no issue found), and every
surfaced count is positive. -/
theorem c3_report_counts {DT : Type} [DecidableEq DT]
    (parse : Cell DT → Option DT) (dateOf : DT → String)
    (df : List (Row DT)) (res : TransformResult DT)
    (hres : transform_data parse dateOf df = some res) :
    (∀ p ∈ res.report, 0 < p.2) ∧
    (("invalid timestamps", tsCount parse df) ∈ res.report ↔
      0 < tsCount parse df) ∧
    (("negative amounts", negCount parse dateOf df) ∈ res.report ↔
      0 < negCount parse dateOf df) ∧
    (("null amounts", nullCount parse dateOf df) ∈ res.report ↔
      0 < nullCount parse dateOf df) ∧
    (("duplicate order_ids", dupCountOf parse dateOf df) ∈ res.report ↔
      0 < dupCountOf parse dateOf df) := by
  unfold transform_data at hres
  split at hres
  · cases Option.some.inj hres
    refine ⟨reportOf_mem_pos _ _ _ _, ?_, ?_, ?_, ?_⟩
    · rw [reportOf_mem_iff]
      constructor
      · rintro (⟨_, _, h0⟩ | ⟨habs, _, _⟩ | ⟨habs, _, _⟩ | ⟨habs, _, _⟩)
        · exact h0
        all_goals exact absurd habs (by decide)
      · intro h0
        exact Or.inl ⟨rfl, rfl, h0⟩
    · rw [reportOf_mem_iff]
      constructor
      · rintro (⟨habs, _, _⟩ | ⟨_, _, h0⟩ | ⟨habs, _, _⟩ | ⟨habs, _, _⟩)
        · exact absurd habs (by decide)
        · exact h0
        all_goals exact absurd habs (by decide)
      · intro h0
        exact Or.inr (Or.inl ⟨rfl, rfl, h0⟩)
    · rw [reportOf_mem_iff]
      constructor
      · rintro (⟨habs, _, _⟩ | ⟨habs, _, _⟩ | ⟨_, _, h0⟩ | ⟨habs, _, _⟩)
        · exact absurd habs (by decide)
        · exact absurd habs (by decide)
        · exact h0
        · exact absurd habs (by decide)
      · intro h0
        exact Or.inr (Or.inr (Or.inl ⟨rfl, rfl, h0⟩))
    · rw [reportOf_mem_iff]
      constructor
      · rintro (⟨habs, _, _⟩ | ⟨habs, _, _⟩ | ⟨habs, _, _⟩ | ⟨_, _, h0⟩)
        · exact absurd habs (by decide)
        · exact absurd habs (by decide)
        · exact absurd habs (by decide)
        · exact h0
      · intro h0
        exact Or.inr (Or.inr (Or.inr ⟨rfl, rfl, h0⟩))
  · exact absurd hres (by simp)

/-- C3, counterexample: on the already-clean dataset cdf the Transformer
succeeds and its report is empty — no step's zero removal count is
surfaced, contradicting the claim that every step's count appears even
when zero. -/
theorem c3_counterexample :
    Option.map TransformResult.report (transform_data p0 d0 cdf) =
      some [] := by decide

/-- Witness for C3's amended theorem at the concrete dirty dataset wdf. -/
theorem c3_report_counts_witness :
    (∀ p ∈ w1res.report, 0 < p.2) ∧
    (("invalid timestamps", tsCount p0 wdf) ∈ w1res.report ↔
      0 < tsCount p0 wdf) ∧
    (("negative amounts", negCount p0 d0 wdf) ∈ w1res.report ↔
      0 < negCount p0 d0 wdf) ∧
    (("null amounts", nullCount p0 d0 wdf) ∈ w1res.report ↔
      0 < nullCount p0 d0 wdf) ∧
    (("duplicate order_ids", dupCountOf p0 d0 wdf) ∈ w1res.report ↔
      0 < dupCountOf p0 d0 wdf) :=
  c3_report_counts p0 d0 wdf w1res (by decide)

theorem colPresent_projectStep_timestamp {DT : Type} (df : List (Row DT)) :
    colPresent (projectStep df) "timestamp" = false := by
  induction df with
  | nil => rfl
  | cons a t ih =>
      show ((project a).any (fun p => p.1 = "timestamp") ||
        (projectStep t).any (fun r => r.any (fun p => p.1 = "timestamp")))
          = false
      rw [Bool.or_eq_false_iff]
      constructor
      · simp [project]
      · exact ih

theorem validate_schema_projectStep {DT : Type} (df : List (Row DT)) :
    validate_schema (projectStep df) = false := by
  have h := colPresent_projectStep_timestamp df
  simp [validate_schema, required_cols, h]

theorem transform_projectStep_none {DT : Type} [DecidableEq DT]
    (parse : Cell DT → Option DT) (dateOf : DT → String)
    (df : List (Row DT)) :
    transform_data parse dateOf (projectStep df) = none := by
  unfold transform_data
  rw [validate_schema_projectStep]
  simp

/-- C4, amended: the Transformer is not idempotent on its own output —
for every dataset on which a transform run succeeds, running the
Transformer again on the returned dataset fails schema validation
(sys.exit(1)), because the output is projected to the clean schema,
which no longer carries the raw timestamp column required by
validate_schema. -/
theorem c4_second_run_fails {DT : Type} [DecidableEq DT]
    (parse : Cell DT → Option DT) (dateOf : DT → String)
    (df : List (Row DT)) (res : TransformResult DT)
    (hres : transform_data parse dateOf df = some res) :
    transform_data parse dateOf res.rows = none := by
  unfold transform_data at hres
  split at hres
  · cases Option.some.inj hres
    show transform_data parse dateOf (cleanRows parse dateOf df) = none
    unfold cleanRows
    exact transform_projectStep_none parse dateOf _
  · exact absurd hres (by simp)

/-- C4, counterexample: on the already-clean dataset cdf the first
transform run succeeds, yet running the Transformer on its output
aborts (returns none) instead of succeeding with zero drops. -/
theorem c4_counterexample :
    transform_data p0 d0 cdf = some c4res ∧
    transform_data p0 d0 c4res.rows = none := by decide

/-- Witness for C4's amended theorem at the concrete clean dataset cdf. -/
theorem c4_second_run_fails_witness :
    transform_data p0 d0 c4res.rows = none :=
  c4_second_run_fails p0 d0 cdf c4res (by decide)

/-- C5, amended: query failures never abort either analytics stage
(both stages always return their message list). In the standalone entry
point each query sits in its own try/except, so a failing query yields
its error block while every other query's block is still produced. In
the embedded entry point one try/except wraps both queries: a failure of
the second query is caught after the first query's result was printed,
but a failure of the first query jumps straight to the handler and the
second query is never attempted. -/
theorem c5_query_isolation {A : Type} (q2 q3 : Except String A)
    (e : String) (r1 : A) :
    analytics_standalone (Except.error e) q2 q3 =
      [AnalyticsMsg.warn e, toMsg q2, toMsg q3] ∧
    analytics_standalone q2 (Except.error e) q3 =
      [toMsg q2, AnalyticsMsg.warn e, toMsg q3] ∧
    analytics_standalone q2 q3 (Except.error e) =
      [toMsg q2, toMsg q3, AnalyticsMsg.warn e] ∧
    run_analytics (Except.ok r1) (Except.error e) =
      [AnalyticsMsg.result r1, AnalyticsMsg.warn e] ∧
    run_analytics (Except.error e) q2 = [AnalyticsMsg.warn e] :=
  ⟨rfl, rfl, rfl, rfl, rfl⟩

/-- C5, counterexample: in the embedded entry point, when the first
query fails the stage's entire output is the single warning — the second
query's result is absent even though that query succeeds whenever it is
attempted — so not every remaining aggregate query is attempted. -/
theorem c5_counterexample :
    run_analytics (Except.error "engine error") (Except.ok (1 : Nat)) =
      [AnalyticsMsg.warn "engine error"] ∧
    AnalyticsMsg.result 1 ∉
      run_analytics (Except.error "engine error") (Except.ok (1 : Nat)) ∧
    run_analytics (Except.ok (0 : Nat)) (Except.ok (1 : Nat)) =
      [AnalyticsMsg.result 0, AnalyticsMsg.result 1] := by decide

/-- C6, amended: the standalone entry point's overall summary reports
total order count, distinct user count, total revenue, average, minimum
and maximum order value, each money stat rounded to 2 decimals; the
embedded entry point's summary reports only total order count, distinct
user count, total revenue and average (rounded), omitting minimum and
maximum order value. -/
theorem c6_summary_stats {DT : Type} [DecidableEq DT]
    (df : List (Row DT)) :
    (summary_standalone df).map Prod.fst =
      ["total_orders", "unique_users", "total_revenue", "avg_order_value",
       "min_order", "max_order"] ∧
    (summary_embedded df).map Prod.fst =
      ["total_orders", "unique_users", "total_revenue", "avg_order"] ∧
    (summary_standalone df).lookup "total_revenue" =
      some ((sqlSum (amounts df)).map round2) ∧
    (summary_standalone df).lookup "avg_order_value" =
      some ((sqlAvg (amounts df)).map round2) ∧
    (summary_standalone df).lookup "min_order" =
      some ((sqlMin (amounts df)).map round2) ∧
    (summary_standalone df).lookup "max_order" =
      some ((sqlMax (amounts df)).map round2) := by
  refine ⟨rfl, rfl, ?_, ?_, ?_, ?_⟩ <;> rfl

/-- C6, counterexample: on the concrete clean dataset produced from cdf,
the embedded entry point's summary carries no min_order or max_order
stat, although the claim asserts both entry points report minimum and
maximum order value. -/
theorem c6_counterexample :
    (summary_embedded c4res.rows).map Prod.fst =
      ["total_orders", "unique_users", "total_revenue", "avg_order"] ∧
    "min_order" ∉ (summary_embedded c4res.rows).map Prod.fst ∧
    "max_order" ∉ (summary_embedded c4res.rows).map Prod.fst := by decide

theorem extractLoop_eq {DT : Type} (pl : String → Option (Row DT))
    (lines : List String) :
    extractLoop pl lines =
      (lines.filterMap pl, lines.countP (fun l => (pl l).isNone)) := by
  induction lines with
  | nil => rfl
  | cons a t ih =>
      unfold extractLoop
      rw [ih]
      cases h : pl a <;>
        simp [List.filterMap_cons, h, List.countP_cons]

theorem filterMap_length_countP {α β : Type} (p : α → Option β)
    (l : List α) :
    (l.filterMap p).length + l.countP (fun x => (p x).isNone) = l.length := by
  induction l with
  | nil => rfl
  | cons a t ih =>
      cases h : p a <;>
        simp [List.filterMap_cons, h, List.countP_cons] <;> omega

/-- C7, amended: provided at least one line parses, the Extractor
returns exactly the successfully parsed records, in input order (the
order-preserving filterMap of the line parser), with the malformed-line
count M, and N − M records are produced out of N lines; no individual
malformed line aborts the run. When every line fails to parse the
Extractor instead aborts with exit 1 under its zero-valid-records rule. -/
theorem c7_extract_order_tolerance {DT : Type}
    (pl : String → Option (Row DT)) (lines : List String)
    (h : lines.filterMap pl ≠ []) :
    extract_data pl lines =
      Except.ok (lines.filterMap pl,
        lines.countP (fun l => (pl l).isNone)) ∧
    (lines.filterMap pl).length +
      lines.countP (fun l => (pl l).isNone) = lines.length := by
  constructor
  · unfold extract_data
    rw [extractLoop_eq]
    have hie : (lines.filterMap pl).isEmpty = false := by
      simpa [List.isEmpty_iff] using h
    simp [hie]
  · exact filterMap_length_countP pl lines

/-- C7, counterexample: an input of one line that fails to parse (N = 1,
M = 1) does not yield N − M = 0 records with M reported — the Extractor
aborts the run with exit 1 instead. -/
theorem c7_counterexample :
    extract_data plFail ["x"] = Except.error 1 := rfl

/-- Witness for C7's amended theorem on a concrete three-line input with
one malformed line. -/
theorem c7_extract_order_tolerance_witness :
    extract_data pl0 ["ok", "bad", "go"] =
      Except.ok ((["ok", "bad", "go"].filterMap pl0),
        (["ok", "bad", "go"].countP (fun l => (pl0 l).isNone))) ∧
    (["ok", "bad", "go"].filterMap pl0).length +
      ["ok", "bad", "go"].countP (fun l => (pl0 l).isNone) =
        (["ok", "bad", "go"] : List String).length :=
  c7_extract_order_tolerance pl0 ["ok", "bad", "go"] (by decide)

/-- C8: the pipeline's process exit code is 0 exactly when no fatal
condition occurs — the input file exists, at least one record survives
parsing, schema validation passes, and the output write succeeds; it is
non-zero otherwise, and the outcomes of the aggregate queries q1, q2
never affect the exit code (their failures are caught). -/
theorem c8_exit_codes {DT A : Type} [DecidableEq DT]
    (fe wo : Bool) (pl : String → Option (Row DT))
    (parse : Cell DT → Option DT) (dateOf : DT → String)
    (lines : List String) (q1 q2 : Except String A) :
    mainPipeline fe wo pl parse dateOf lines q1 q2 = 0 ↔
      (fe = true ∧ lines.filterMap pl ≠ [] ∧
       validate_schema (lines.filterMap pl) = true ∧ wo = true) := by
  unfold mainPipeline extract_data
  rw [extractLoop_eq]
  cases fe
  · simp
  · by_cases he : lines.filterMap pl = []
    · have hie : (lines.filterMap pl).isEmpty = true := by
        simp [he]
      simp [hie, he]
    · have hie : (lines.filterMap pl).isEmpty = false := by
        simpa [List.isEmpty_iff] using he
      unfold transform_data
      by_cases hv : validate_schema (lines.filterMap pl) = true
      · cases wo <;> simp [hie, he, hv]
      · simp [hie, he, hv]

theorem pairwise_countP_le_one {DT : Type} [DecidableEq DT]
    {l : List (Row DT)}
    (hp : l.Pairwise (fun a b => dupKey a ≠ dupKey b)) (k : Cell DT) :
    l.countP (fun r => dupKey r = k) ≤ 1 := by
  induction l with
  | nil => simp
  | cons a t ih =>
      rw [List.countP_cons]
      rcases List.pairwise_cons.mp hp with ⟨ha, ht⟩
      by_cases hk : dupKey a = k
      · have hz : t.countP (fun r => dupKey r = k) = 0 := by
          apply List.countP_eq_zero.mpr
          intro r hr
          simp only [decide_eq_true_eq]
          intro he
          exact ha r hr (hk.trans he.symm)
        rw [hz]
        simp [hk]
      · have h1 := ih ht
        simp [hk]
        omega

theorem dupCount_pos_of_two {DT : Type} [DecidableEq DT]
    {df : List (Row DT)} {k : Cell DT}
    (h : 2 ≤ df.countP (fun r => dupKey r = k)) : 0 < dupCount [] df := by
  by_contra h0
  have hz : dupCount [] df = 0 := by omega
  have hle := pairwise_countP_le_one (dupCount_zero hz).1 k
  omega

theorem dedupe_filter {DT : Type} [DecidableEq DT] (k : Cell DT)
    (l : List (Row DT)) (seen : List (Cell DT)) :
    (dedupe seen l).filter (fun r => dupKey r = k) =
      if k ∈ seen then []
      else
        match l.find? (fun r => dupKey r = k) with
        | some r₀ => [r₀]
        | none => [] := by
  induction l generalizing seen with
  | nil =>
      unfold dedupe
      simp only [List.filter_nil, List.find?_nil]
      split <;> rfl
  | cons a t ih =>
      unfold dedupe
      by_cases hs : dupKey a ∈ seen
      · rw [if_pos hs, ih seen]
        by_cases hk : k ∈ seen
        · rw [if_pos hk, if_pos hk]
        · rw [if_neg hk, if_neg hk]
          have hak : (dupKey a = k) = False := by
            simp only [eq_iff_iff, iff_false]
            exact fun he => hk (he ▸ hs)
          rw [List.find?_cons]
          simp [hak]
      · rw [if_neg hs, List.filter_cons, ih (dupKey a :: seen)]
        by_cases hak : dupKey a = k
        · subst hak
          simp [List.find?_cons, hs]
        · have hmem : (k ∈ dupKey a :: seen) ↔ k ∈ seen := by
            rw [List.mem_cons]
            constructor
            · rintro (rfl | hkk)
              · exact absurd rfl hak
              · exact hkk
            · exact Or.inr
          by_cases hk : k ∈ seen
          · rw [if_pos (hmem.mpr hk), if_pos hk]
            simp [hak]
          · rw [if_neg (fun hkk => hk (hmem.mp hkk)), if_neg hk,
              List.find?_cons]
            simp [hak]

/-- C9: de-duplication is stable — for every dataset reaching the
de-duplication step that contains two or more rows sharing an order_id
key k, the step's output contains exactly one row with key k, namely the
first such row of the input (find? returns the earliest match), carried
with all its field values. -/
theorem c9_dedup_stable {DT : Type} [DecidableEq DT]
    (df : List (Row DT)) (k : Cell DT)
    (h : 2 ≤ df.countP (fun r => dupKey r = k)) :
    ∃ r₀, df.find? (fun r => dupKey r = k) = some r₀ ∧ r₀ ∈ df ∧
      dupKey r₀ = k ∧
      (dupStep df).2.filter (fun r => dupKey r = k) = [r₀] := by
  have hpos := dupCount_pos_of_two h
  have hex : ∃ r ∈ df, (fun r => decide (dupKey r = k)) r = true := by
    apply List.countP_pos_iff.mp
    omega
  obtain ⟨r₀, hfind⟩ := Option.isSome_iff_exists.mp
    (List.find?_isSome.mpr hex)
  refine ⟨r₀, hfind, List.mem_of_find?_eq_some hfind, ?_, ?_⟩
  · have := List.find?_some hfind
    simpa using this
  · unfold dupStep
    simp only
    rw [if_pos hpos, dedupe_filter k df [], hfind]
    simp

/-- Witness for C9 on the concrete dataset c9df, whose first and third
rows share order_id "x" with amounts 10 and 30: the single surviving "x"
row is the first one, amount 10. -/
theorem c9_dedup_stable_witness :
    ∃ r₀, c9df.find? (fun r => dupKey r = Cell.str "x") = some r₀ ∧
      r₀ ∈ c9df ∧ dupKey r₀ = Cell.str "x" ∧
      (dupStep c9df).2.filter (fun r => dupKey r = Cell.str "x") = [r₀] :=
  c9_dedup_stable c9df (Cell.str "x") (by decide)

theorem getCol_eq_null_of_not_mem {DT : Type} (r : Row DT) (c : String)
    (h : ∀ p ∈ r, p.1 ≠ c) : getCol r c = Cell.null := by
  induction r with
  | nil => rfl
  | cons a t ih =>
      show (if a.1 = c then a.2 else getCol t c) = Cell.null
      rw [if_neg (h a (List.mem_cons_self a t))]
      exact ih (fun p hp => h p (List.mem_cons_of_mem a hp))

theorem nullStep_not_nullamt {DT : Type} (d : List (Row DT)) :
    ∀ r ∈ (nullStep d).2, isNA (getCol r "amount") = false := by
  intro r hr
  exact (nullStep_mem d r (nullStep_subset hr)).mp hr

theorem cleanRows_row_level {DT : Type} [DecidableEq DT]
    (parse : Cell DT → Option DT) (dateOf : DT → String)
    (df : List (Row DT)) :
    ∀ r ∈ cleanRows parse dateOf df,
      isNA (getCol r "amount") = false ∧
      isNA (getCol r "category") = false := by
  intro r hr
  obtain ⟨r1, hr1, rfl⟩ := List.mem_map.mp hr
  obtain ⟨r2, hr2, rfl⟩ := mem_catStep hr1
  constructor
  · rw [getCol_project_amount, getCol_setCol_ne _ _ (by decide)]
    exact nullStep_not_nullamt _ r2 (dupStep_subset hr2)
  · rw [getCol_project_category, getCol_setCol_same]
    exact catVal_not_null r2

/-- C10: schema validation looks only at the union of field names over
all extracted records — whenever every required field appears in at
least one record, validation passes even if individual records lack some
required fields; a field absent from a record reads as null inside the
Transform stage, and such row-level gaps are handled row-level: no
output row has a null amount (dropped) or a null category (defaulted). -/
theorem c10_schema_union {DT : Type} [DecidableEq DT]
    (parse : Cell DT → Option DT) (dateOf : DT → String)
    (df : List (Row DT))
    (h : ∀ c ∈ required_cols, ∃ r ∈ df, ∃ p ∈ r, p.1 = c) :
    validate_schema df = true ∧
    (transform_data parse dateOf df).isSome = true ∧
    (∀ r : Row DT, ∀ c : String,
      (∀ p ∈ r, p.1 ≠ c) → getCol r c = Cell.null) ∧
    (∀ res, transform_data parse dateOf df = some res →
      ∀ r ∈ res.rows,
        isNA (getCol r "amount") = false ∧
        isNA (getCol r "category") = false) := by
  have hv : validate_schema df = true := by
    unfold validate_schema
    apply List.all_eq_true.mpr
    intro c hc
    obtain ⟨r, hr, p, hp, hpc⟩ := h c hc
    unfold colPresent
    apply List.any_eq_true.mpr
    exact ⟨r, hr, List.any_eq_true.mpr ⟨p, hp, by simp [hpc]⟩⟩
  refine ⟨hv, ?_, ?_, ?_⟩
  · unfold transform_data
    simp [hv]
  · intro r c hc
    exact getCol_eq_null_of_not_mem r c hc
  · intro res hres
    unfold transform_data at hres
    split at hres
    · cases Option.some.inj hres
      exact cleanRows_row_level parse dateOf df
    · rename_i hnv
      exact absurd hv hnv

/-- Witness for C10: in c10df no single record carries every required
field, yet each required field appears in some record; validation passes,
the transform succeeds, and the output handles the gaps row-level. -/
theorem c10_schema_union_witness :
    validate_schema c10df = true ∧
    (transform_data p0 d0 c10df).isSome = true ∧
    (∀ r : Row Nat, ∀ c : String,
      (∀ p ∈ r, p.1 ≠ c) → getCol r c = Cell.null) ∧
    (∀ res, transform_data p0 d0 c10df = some res →
      ∀ r ∈ res.rows,
        isNA (getCol r "amount") = false ∧
        isNA (getCol r "category") = false) :=
  c10_schema_union p0 d0 c10df (by decide)
